import Mathlib

/-!
Verification of the Subjects CRUD core (NestJS `SubjectsService`) against its
specification. The service's data model and operations are embedded shallowly:
the TypeORM entities become structures, the persistent database becomes an
explicit `Store` record threaded through the operations, JS `undefined` for an
absent DTO field becomes `Option.none`, and thrown framework exceptions become
an `Except Err` result. Jsonb diff payloads are embedded as association lists
of a small JSON value type, with a key whose JS value is `undefined` dropped
(as `JSON.stringify` drops it on the way into the jsonb column).
-/

namespace Mtw

/-- JSON-like value stored in the jsonb `diff` column of an `audit_log` row. -/
inductive JVal where
  | str (s : String)
  | obj (fields : List (String × JVal))

/-- Subject entity (`subject.entity.ts`): uuid id, unique `number`, name,
DATE-typed birth date held as its canonical `YYYY-MM-DD` string, and the
owning center's id. -/
structure Subject where
  id : String
  number : String
  name : String
  birthDate : String
  centerId : String
deriving DecidableEq

/-- Center entity: id and display name. -/
structure Center where
  id : String
  name : String
deriving DecidableEq

/-- `user_center` join row: one membership grant of a user to a center. -/
structure UserCenter where
  userId : String
  centerId : String
deriving DecidableEq

/-- `audit_log` entity: nullable subject and user references, action tag,
jsonb diff payload, and creation timestamp (modelled as a Nat tick). -/
structure AuditLog where
  id : String
  subjectId : Option String
  userId : Option String
  action : String
  diff : List (String × JVal)
  timestamp : Nat

/-- The persistent database: the four tables the service touches. -/
structure Store where
  subjects : List Subject
  centers : List Center
  userCenters : List UserCenter
  auditLogs : List AuditLog

/-- Error taxonomy of the service: `NotFoundException`, `ForbiddenException`,
and the Conflict surfaced by the uniqueness constraint on `number`. -/
inductive Err where
  | notFound
  | forbidden
  | conflict
deriving DecidableEq

/-- `usersService.findUserCenters(userId)`: the AccessScope — the list of
center ids the user is a member of. -/
def findUserCenters (st : Store) (userId : String) : List String :=
  (st.userCenters.filter (fun m => m.userId == userId)).map (fun m => m.centerId)

/-- `centersService.findOne(centerId, userId)`: the Center lookup
collaborator, `Center | not found` per the spec's external-interface
contract. -/
def centersFindOne (st : Store) (centerId : String) : Option Center :=
  st.centers.find? (fun c => c.id == centerId)

/-- `CreateSubjectDto`: all four fields required. -/
structure CreateSubjectDto where
  number : String
  name : String
  birthDate : String
  centerId : String
deriving DecidableEq

/-- `UpdateSubjectDto = PartialType(CreateSubjectDto)`: every field optional;
a field absent from the PATCH body is `none`. -/
structure UpdateSubjectDto where
  number : Option String
  name : Option String
  birthDate : Option String
  centerId : Option String
deriving DecidableEq

/-- One row written to the database: a subject upsert or an audit insert.
`create`/`update` issue these sequentially as separate awaited repository
calls; there is no enclosing transaction in the source (the injected
`DataSource` is unused there). -/
inductive DbWrite where
  | putSubject (s : Subject)
  | putAudit (e : AuditLog)

/-- Apply one database write to the store. A subject write updates the row
with the same id when it exists, else inserts; an audit write appends. -/
def applyWrite (st : Store) : DbWrite → Store
  | .putSubject s =>
      if st.subjects.any (fun t => t.id == s.id) then
        { st with subjects := st.subjects.map (fun t => if t.id == s.id then s else t) }
      else
        { st with subjects := st.subjects ++ [s] }
  | .putAudit e => { st with auditLogs := st.auditLogs ++ [e] }

/-- Apply a sequence of database writes in order. -/
def applyWrites (st : Store) (ws : List DbWrite) : Store :=
  ws.foldl applyWrite st

/-- Modelled from the spec: the diff payload of a CREATE audit entry is
elided as `{...}` at both call sites in the source; the spec says it holds
the full initial field set, which the audit-lookup query then reads back as
flat text values (`diff->>'number'`). -/
def createDiff (s : Subject) : List (String × JVal) :=
  [("number", .str s.number), ("name", .str s.name),
   ("birthDate", .str s.birthDate), ("centerId", .str s.centerId)]

/-- The sequence of row writes `create` issues after its checks pass.
Scope check first (`ForbiddenException('Access denied')`); then the
duplicate lookup on `number` — combined with the `unique: true` constraint
on the `number` column of the subject entity, a call with an already-taken
number fails with Conflict and writes nothing. -/
def createWrites (st : Store) (dto : CreateSubjectDto)
    (userId freshId entryId : String) (now : Nat) : Except Err (List DbWrite) :=
  let scope := findUserCenters st userId
  if !(scope.contains dto.centerId) then .error .forbidden
  else if st.subjects.any (fun s => s.number == dto.number) then .error .conflict
  else
    let s : Subject := ⟨freshId, dto.number, dto.name, dto.birthDate, dto.centerId⟩
    .ok [.putSubject s, .putAudit ⟨entryId, some freshId, some userId, "CREATE", createDiff s, now⟩]

/-- `SubjectsService.create(createSubjectDto, userId)`: runs all its row
writes to completion and returns the saved subject. -/
def create (st : Store) (dto : CreateSubjectDto)
    (userId freshId entryId : String) (now : Nat) : Except Err (Store × Subject) :=
  (createWrites st dto userId freshId entryId now).map
    (fun ws => (applyWrites st ws, ⟨freshId, dto.number, dto.name, dto.birthDate, dto.centerId⟩))

/-- The `ORDER BY subject.number ASC` comparison. -/
def subjectNumLE (a b : Subject) : Prop := a.number ≤ b.number

instance : DecidableRel subjectNumLE :=
  fun a b => inferInstanceAs (Decidable (a.number ≤ b.number))

instance : IsTrans Subject subjectNumLE :=
  ⟨fun _ _ _ hab hbc => le_trans hab hbc⟩

instance : IsTotal Subject subjectNumLE :=
  ⟨fun a b => le_total a.number b.number⟩

/-- `SubjectsService.findAll(userId)`: empty scope short-circuits to `[]`;
otherwise all subjects whose center is in scope, ordered by number (a stable
sort, matching the storage collation's deterministic order). -/
def findAll (st : Store) (userId : String) : List Subject :=
  let scope := findUserCenters st userId
  if scope.isEmpty then []
  else (st.subjects.filter (fun s => scope.contains s.centerId)).insertionSort subjectNumLE

/-- `SubjectsService.findOne(id, userId)`: row lookup first (NotFound when
absent), then the scope check (Forbidden when the center is out of scope). -/
def findOne (st : Store) (id userId : String) : Except Err Subject :=
  match st.subjects.find? (fun s => s.id == id) with
  | none => .error .notFound
  | some s =>
      if (findUserCenters st userId).contains s.centerId then .ok s
      else .error .forbidden

/-- A flat `{old, new}` diff pair. The `new` member is the raw DTO value;
when that value is JS `undefined` (field absent from the PATCH body) the key
is dropped by jsonb serialization. -/
def flatPair (oldV : String) (newV : Option String) : JVal :=
  .obj (("old", .str oldV) :: (match newV with
    | some s => [("new", JVal.str s)]
    | none => []))

/-- `center?.name || 'Unknown'`: the sentinel replaces both a failed lookup
and (by JS falsiness) an empty name. -/
def centerName (st : Store) (centerId : String) : String :=
  match centersFindOne st centerId with
  | some c => if c.name == "" then "Unknown" else c.name
  | none => "Unknown"

/-- The nested `{old:{id,name}, new:{id,name}}` pair written under the
`center` key when `centerId` changes. -/
def centerPair (st : Store) (oldId newId : String) : JVal :=
  .obj [("old", .obj [("id", .str oldId), ("name", .str (centerName st oldId))]),
        ("new", .obj [("id", .str newId), ("name", .str (centerName st newId))])]

/-- The diff computed inside `update`. Transcribed check for check from the
source: the `number` and `name` comparisons are plain strict inequalities
against the possibly-absent DTO value (no presence guard), while `birthDate`
and `centerId` are guarded by JS truthiness of the supplied value. The
source's `oldBirthDate` denotes the stored birth date, whose
`toISOString().split('T')[0]` form is exactly the stored canonical string. -/
def computeDiff (st : Store) (oldS : Subject) (dto : UpdateSubjectDto) :
    List (String × JVal) :=
  (if dto.number ≠ some oldS.number then [("number", flatPair oldS.number dto.number)] else [])
  ++ (if dto.name ≠ some oldS.name then [("name", flatPair oldS.name dto.name)] else [])
  ++ (match dto.birthDate with
      | some nb => if nb ≠ "" ∧ nb ≠ oldS.birthDate
          then [("birthDate", flatPair oldS.birthDate (some nb))] else []
      | none => [])
  ++ (match dto.centerId with
      | some nc => if nc ≠ "" ∧ nc ≠ oldS.centerId
          then [("center", centerPair st oldS.centerId nc)] else []
      | none => [])

/-- `Object.assign(subject, updateSubjectDto)`: fields present in the PATCH
body overwrite, absent fields are left untouched. -/
def applyDto (s : Subject) (dto : UpdateSubjectDto) : Subject :=
  { s with
    number := dto.number.getD s.number
    name := dto.name.getD s.name
    birthDate := dto.birthDate.getD s.birthDate
    centerId := dto.centerId.getD s.centerId }

/-- The sequence of row writes `update` issues: access check via `findOne`,
the save of the mutated row (failing with Conflict when the `unique: true`
constraint on `number` is violated by another row), and — only when the
computed diff is nonempty — the UPDATE audit insert whose payload is the
diff spread together with a flat `subjectId` key. -/
def updateWrites (st : Store) (id : String) (dto : UpdateSubjectDto)
    (userId entryId : String) (now : Nat) : Except Err (List DbWrite) :=
  match findOne st id userId with
  | .error e => .error e
  | .ok s =>
      let s2 := applyDto s dto
      if st.subjects.any (fun t => t.id != id && t.number == s2.number) then .error .conflict
      else
        let d := computeDiff st s dto
        if d.isEmpty then .ok [.putSubject s2]
        else .ok [.putSubject s2,
          .putAudit ⟨entryId, some id, some userId, "UPDATE", d ++ [("subjectId", .str id)], now⟩]

/-- `SubjectsService.update(id, updateSubjectDto, userId)`: runs all its row
writes to completion and returns the updated subject. -/
def update (st : Store) (id : String) (dto : UpdateSubjectDto)
    (userId entryId : String) (now : Nat) : Except Err (Store × Subject) :=
  match findOne st id userId with
  | .error e => .error e
  | .ok s =>
      match updateWrites st id dto userId entryId now with
      | .error e => .error e
      | .ok ws => .ok (applyWrites st ws, applyDto s dto)

/-- Hexadecimal digit test used by the UUID shape check. -/
def isHexDigit (c : Char) : Bool :=
  c.isDigit || (decide ('a' ≤ c) && decide (c ≤ 'f')) || (decide ('A' ≤ c) && decide (c ≤ 'F'))

/-- The canonical UUID shape test from `getAuditLogs`: 8-4-4-4-12 hexadecimal
groups, case-insensitive, anchored at both ends. -/
def isUUID (s : String) : Bool :=
  let cs := s.toList
  cs.length == 36 &&
  cs.enum.all (fun p =>
    if p.1 == 8 || p.1 == 13 || p.1 == 18 || p.1 == 23 then p.2 == '-'
    else isHexDigit p.2)

/-- The jsonb text accessor `diff->>'key'` restricted to scalar values: the
text form of an object value contains a brace and can never equal a subject
number or a UUID, so only a string value can match the query parameter. -/
def diffText (d : List (String × JVal)) (key : String) : Option String :=
  match d.lookup key with
  | some (.str s) => some s
  | _ => none

/-- The jsonb accessor `diff->'key'->>'new'`: the text of the `new` member
when the value under `key` is an object with a string there. -/
def diffNewText (d : List (String × JVal)) (key : String) : Option String :=
  match d.lookup key with
  | some (.obj fs) =>
      match fs.lookup "new" with
      | some (.str s) => some s
      | _ => none
  | _ => none

/-- The audit-scan predicate of resolution step 3: the diff's `number` field
equals the input either as a flat value or as the `new` half of a pair. -/
def numberMatches (input : String) (e : AuditLog) : Bool :=
  diffText e.diff "number" == some input || diffNewText e.diff "number" == some input

/-- `ORDER BY audit_log.timestamp ASC` comparison. -/
def tsAsc (a b : AuditLog) : Prop := a.timestamp ≤ b.timestamp

instance : DecidableRel tsAsc :=
  fun a b => inferInstanceAs (Decidable (a.timestamp ≤ b.timestamp))

instance : IsTrans AuditLog tsAsc :=
  ⟨fun _ _ _ hab hbc => le_trans hab hbc⟩

instance : IsTotal AuditLog tsAsc :=
  ⟨fun a b => Nat.le_total a.timestamp b.timestamp⟩

/-- `ORDER BY audit_log.timestamp DESC` comparison. -/
def tsDesc (a b : AuditLog) : Prop := b.timestamp ≤ a.timestamp

instance : DecidableRel tsDesc :=
  fun a b => inferInstanceAs (Decidable (b.timestamp ≤ a.timestamp))

instance : IsTrans AuditLog tsDesc :=
  ⟨fun _ _ _ hab hbc => le_trans hbc hab⟩

instance : IsTotal AuditLog tsDesc :=
  ⟨fun a b => Nat.le_total b.timestamp a.timestamp⟩

/-- The identifier-resolution prefix of `getAuditLogs`: a UUID-shaped input
is used directly; else a live subject by `number`; else the earliest audit
entry whose diff `number` matches supplies its (possibly null) subject
reference. -/
def resolveSubjectId (st : Store) (input : String) : Option String :=
  if isUUID input then some input
  else
    match st.subjects.find? (fun s => s.number == input) with
    | some s => some s.id
    | none =>
        match (st.auditLogs.insertionSort tsAsc).find? (numberMatches input) with
        | some e => e.subjectId
        | none => none

/-- The main audit query's WHERE clause: the row's direct subject reference
equals the resolved id, or its diff payload embeds it under `subjectId`. -/
def refersTo (sid : String) (e : AuditLog) : Bool :=
  e.subjectId == some sid || diffText e.diff "subjectId" == some sid

/-- The main audit query: all entries referencing the resolved id, newest
first. -/
def logsFor (st : Store) (sid : String) : List AuditLog :=
  (st.auditLogs.filter (refersTo sid)).insertionSort tsDesc

/-- The center id recorded by an audit entry: the `new` id of a nested
center pair, else a flat `centerId` value. -/
def entryCenterId (e : AuditLog) : Option String :=
  match e.diff.lookup "center" with
  | some (.obj fs) =>
      (match fs.lookup "new" with
       | some (.obj nfs) =>
           (match nfs.lookup "id" with
            | some (.str s) => some s
            | _ => none)
       | _ => none)
  | _ => diffText e.diff "centerId"

/-- Modelled from the spec: the access-control tail of `getAuditLogs` is
elided in the source (`// ... access control logic ...`); the spec says the
resolved subject's possibly historical center is checked against the
caller's scope. The center is the live subject's when the subject still
exists, else the most recent center its audit history records. -/
def historicalCenterId (st : Store) (sid : String) : Option String :=
  match st.subjects.find? (fun s => s.id == sid) with
  | some s => some s.centerId
  | none =>
      ((st.auditLogs.filter (fun e => e.subjectId == some sid)).insertionSort tsDesc).findSome?
        entryCenterId

/-- `SubjectsService.getAuditLogs(subjectIdOrNumber, userId)`: resolve the
subject id (empty result when no path resolves one), collect the referencing
entries newest first, and fail with Authorization when the subject's
historical center is outside the caller's scope. -/
def getAuditLogs (st : Store) (input userId : String) : Except Err (List AuditLog) :=
  match resolveSubjectId st input with
  | none => .ok []
  | some sid =>
      match historicalCenterId st sid with
      | some c =>
          if (findUserCenters st userId).contains c then .ok (logsFor st sid)
          else .error .forbidden
      | none => .ok (logsFor st sid)

/-! Helper lemmas shared by the theorems below. -/

theorem contains_true_iff {l : List String} {x : String} : l.contains x = true ↔ x ∈ l :=
  List.elem_iff

theorem pairwise_insertionSort_subject (l : List Subject) :
    (l.insertionSort subjectNumLE).Pairwise (fun a b => a.number ≤ b.number) :=
  List.sorted_insertionSort subjectNumLE l

theorem pairwise_insertionSort_tsAsc (l : List AuditLog) :
    (l.insertionSort tsAsc).Pairwise (fun a b => a.timestamp ≤ b.timestamp) :=
  List.sorted_insertionSort tsAsc l

theorem pairwise_insertionSort_tsDesc (l : List AuditLog) :
    (l.insertionSort tsDesc).Pairwise (fun a b => b.timestamp ≤ a.timestamp) :=
  List.sorted_insertionSort tsDesc l

theorem find?_first_of_pairwise {α : Type} {p : α → Bool} {r : α → α → Prop}
    (hrefl : ∀ a, p a = true → r a a) :
    ∀ {l : List α} {a : α}, l.Pairwise r → l.find? p = some a →
      ∀ b ∈ l, p b = true → r a b := by
  intro l
  induction l with
  | nil => intro a _ h; simp at h
  | cons x t ih =>
      intro a hpw hf b hb hpb
      cases hpx : p x with
      | false =>
          rw [List.find?_cons_of_neg _ (by simp [hpx])] at hf
          rcases List.mem_cons.mp hb with rfl | hbt
          · rw [hpx] at hpb; cases hpb
          · exact ih hpw.of_cons hf b hbt hpb
      | true =>
          rw [List.find?_cons_of_pos _ hpx] at hf
          cases hf
          rcases List.mem_cons.mp hb with rfl | hbt
          · exact hrefl b hpb
          · exact (List.pairwise_cons.mp hpw).1 b hbt

/-! Concrete fixtures used by the closed theorems and witnesses. -/

def subA : Subject := ⟨"a1", "SUB-001", "Alice", "1990-01-15", "C1"⟩

def st1 : Store :=
  ⟨[subA], [⟨"C1", "Center A"⟩, ⟨"C2", "Center B"⟩], [⟨"u1", "C1"⟩], []⟩

/-- C1: as stated the claim fails on the code. When the caller's scope does
not contain the payload's `centerId`, `create` throws Forbidden before the
duplicate-number check ever runs: here a Subject with number `SUB-001`
already exists (owned by center `C1`), yet the create targeting center `C2`
by user `u1` (scope `[C1]`) fails with Authorization, not Conflict. -/
theorem C1_counterexample :
    (∃ s ∈ st1.subjects, s.number = "SUB-001") ∧
    create st1 ⟨"SUB-001", "Bob", "1991-02-20", "C2"⟩ "u1" "f1" "e1" 0 =
      .error .forbidden ∧
    Err.forbidden ≠ Err.conflict :=
  ⟨⟨subA, by simp [st1], rfl⟩, rfl, by decide⟩

/-- C1 amended: for every create call whose payload `centerId` is inside the
caller's resolved scope, if a Subject with the same `number` already exists
(even one owned by a different center), the call fails with Conflict, and —
since an error result carries no store — no new Subject is persisted. -/
theorem C1_amended_conflict (st : Store) (dto : CreateSubjectDto)
    (userId freshId entryId : String) (now : Nat)
    (hscope : (findUserCenters st userId).contains dto.centerId = true)
    (hdup : st.subjects.any (fun s => s.number == dto.number) = true) :
    create st dto userId freshId entryId now = .error .conflict := by
  have hm : dto.centerId ∈ findUserCenters st userId := contains_true_iff.mp hscope
  simp [create, createWrites, hm, hdup, Except.map]

theorem C1_amended_conflict_witness :
    (findUserCenters st1 "u1").contains "C1" = true ∧
    st1.subjects.any (fun s => s.number == "SUB-001") = true ∧
    create st1 ⟨"SUB-001", "Bob", "1991-02-20", "C1"⟩ "u1" "f1" "e1" 0 =
      .error .conflict :=
  ⟨rfl, rfl, C1_amended_conflict st1 ⟨"SUB-001", "Bob", "1991-02-20", "C1"⟩
    "u1" "f1" "e1" 0 rfl rfl⟩

def dtoSame : UpdateSubjectDto := ⟨none, some "Alice", none, none⟩

/-- C2: the code contradicts the claim. The PATCH body supplies only
`name`, equal to the stored name, so no supplied field differs from the
stored values — yet because the `number` inequality check is not guarded by
presence, the computed diff contains a `number` entry (with the absent new
value dropped), the diff is nonempty, and an UPDATE audit entry is written. -/
theorem C2_unsupplied_field_in_diff :
    dtoSame.name = some subA.name ∧
    (dtoSame.number = none ∧ dtoSame.birthDate = none ∧ dtoSame.centerId = none) ∧
    computeDiff st1 subA dtoSame = [("number", JVal.obj [("old", JVal.str "SUB-001")])] ∧
    (update st1 "a1" dtoSame "u1" "e9" 7).map (fun p => p.1.auditLogs.length) = .ok 1 :=
  ⟨rfl, ⟨rfl, rfl, rfl⟩, rfl, rfl⟩

def subNew : Subject := ⟨"f1", "SUB-002", "Bob", "1991-02-20", "C1"⟩

def auditE1 : AuditLog := ⟨"e1", some "f1", some "u1", "CREATE", createDiff subNew, 3⟩

/-- C3: the code contradicts the claim. `create` issues the Subject save and
the audit insert as two separate sequential writes with no enclosing
transaction, so the execution in which only the first write commits (the
audit insert fails) leaves the Subject persisted with no audit entry at all
— exactly the partial write the claim rules out. -/
theorem C3_partial_write :
    createWrites st1 ⟨"SUB-002", "Bob", "1991-02-20", "C1"⟩ "u1" "f1" "e1" 3 =
      .ok [DbWrite.putSubject subNew, DbWrite.putAudit auditE1] ∧
    (applyWrites st1
      ([DbWrite.putSubject subNew, DbWrite.putAudit auditE1].take 1)).subjects.any
        (fun t => t.id == "f1") = true ∧
    (applyWrites st1
      ([DbWrite.putSubject subNew, DbWrite.putAudit auditE1].take 1)).auditLogs = [] :=
  ⟨rfl, rfl, rfl⟩

/-- C4: `findOne` fails with NotFound when no Subject has the identifier;
when one exists but its center is outside the caller's scope it fails with
Authorization; a Forbidden outcome implies the Subject exists (existence is
decided before scope), and the two failures are distinct. -/
theorem C4_findOne_taxonomy (st : Store) (id userId : String) :
    (st.subjects.find? (fun s => s.id == id) = none →
      findOne st id userId = .error .notFound) ∧
    (∀ s, st.subjects.find? (fun s => s.id == id) = some s →
      s.centerId ∉ findUserCenters st userId →
      findOne st id userId = .error .forbidden) ∧
    (findOne st id userId = .error .forbidden →
      ∃ s, st.subjects.find? (fun s => s.id == id) = some s) ∧
    Err.notFound ≠ Err.forbidden := by
  refine ⟨?_, ?_, ?_, by decide⟩
  · intro h; simp [findOne, h]
  · intro s hs hmem
    simp [findOne, hs, hmem]
  · intro h
    unfold findOne at h
    cases hfind : st.subjects.find? (fun s => s.id == id) with
    | none => rw [hfind] at h; simp at h
    | some s => exact ⟨s, rfl⟩

theorem C4_findOne_taxonomy_witness :
    findOne st1 "zz" "u1" = .error .notFound ∧
    findOne st1 "a1" "u9" = .error .forbidden :=
  ⟨(C4_findOne_taxonomy st1 "zz" "u1").1 rfl,
   (C4_findOne_taxonomy st1 "a1" "u9").2.1 subA rfl (by simp [st1, findUserCenters])⟩

/-- C5: `findAll` returns an empty sequence (never an error) when the
caller's scope is empty; otherwise its result holds exactly the Subjects
whose `centerId` is in scope, and it is ordered ascending by `number`. -/
theorem C5_findAll_spec (st : Store) (userId : String) :
    (findUserCenters st userId = [] → findAll st userId = []) ∧
    (∀ s, s ∈ findAll st userId ↔
      s ∈ st.subjects ∧ s.centerId ∈ findUserCenters st userId) ∧
    (findAll st userId).Pairwise (fun a b => a.number ≤ b.number) := by
  refine ⟨?_, ?_, ?_⟩
  · intro h; simp [findAll, h]
  · intro s
    unfold findAll
    by_cases h : (findUserCenters st userId).isEmpty
    · rw [List.isEmpty_iff] at h
      simp [h]
    · simp [h, List.mem_insertionSort, List.mem_filter, contains_true_iff]
  · unfold findAll
    by_cases h : (findUserCenters st userId).isEmpty
    · simp [h]
    · simpa [h] using pairwise_insertionSort_subject
        (st.subjects.filter (fun s => (findUserCenters st userId).contains s.centerId))

theorem C5_findAll_spec_witness :
    findAll st1 "u9" = [] ∧ (subA ∈ findAll st1 "u1" ↔ True) :=
  ⟨(C5_findAll_spec st1 "u9").1 rfl,
   by
    have h := ((C5_findAll_spec st1 "u1").2.1 subA)
    simp only [iff_true]
    exact h.mpr ⟨by simp [st1], by simp [st1, subA, findUserCenters]⟩⟩

theorem key_of_mem_ite_single {c : Prop} [Decidable c] {k0 : String} {v : JVal}
    {p : String × JVal} (hp : p ∈ (if c then [(k0, v)] else [])) : p.1 = k0 := by
  by_cases h : c
  · rw [if_pos h] at hp
    simp only [List.mem_singleton] at hp
    rw [hp]
  · rw [if_neg h] at hp
    simp at hp

theorem lookup_append_of_ne_key {l1 l2 : List (String × JVal)} {k : String}
    (h : ∀ p ∈ l1, p.1 ≠ k) : (l1 ++ l2).lookup k = l2.lookup k := by
  induction l1 with
  | nil => simp
  | cons a t ih =>
      cases a with
      | mk k1 v =>
          have ha : (k == k1) = false := by
            have hne := h (k1, v) (List.mem_cons_self _ _)
            simp only [beq_eq_false_iff_ne, ne_eq]
            intro hk
            exact hne hk.symm
          simp only [List.cons_append, List.lookup_cons, ha]
          exact ih (fun p hp => h p (List.mem_cons_of_mem _ hp))

/-- C6: when the PATCH body changes `centerId`, the computed diff's center
entry is the nested `{old:{id,name}, new:{id,name}}` pair whose names come
from the old and new Center lookups, with the sentinel `Unknown` substituted
where a lookup fails, and the update still succeeds; a changed scalar `name`
yields a flat `{old, new}` pair of raw strings. -/
theorem C6_center_diff_shape (st : Store) (id userId entryId : String) (now : Nat)
    (s : Subject) (dto : UpdateSubjectDto) (nc nn : String)
    (hc : dto.centerId = some nc) (hc0 : nc ≠ "") (hcne : nc ≠ s.centerId) :
    (computeDiff st s dto).lookup "center" = some (centerPair st s.centerId nc) ∧
    centerPair st s.centerId nc =
      JVal.obj [("old", JVal.obj [("id", JVal.str s.centerId),
                                  ("name", JVal.str (centerName st s.centerId))]),
                ("new", JVal.obj [("id", JVal.str nc),
                                  ("name", JVal.str (centerName st nc))])] ∧
    (centersFindOne st s.centerId = none → centerName st s.centerId = "Unknown") ∧
    (centersFindOne st nc = none → centerName st nc = "Unknown") ∧
    (findOne st id userId = .ok s →
      st.subjects.any (fun t => t.id != id && t.number == (applyDto s dto).number) = false →
      ∃ p, update st id dto userId entryId now = .ok p) ∧
    (dto.name = some nn → nn ≠ s.name →
      (computeDiff st s dto).lookup "name" =
        some (JVal.obj [("old", JVal.str s.name), ("new", JVal.str nn)])) := by
  refine ⟨?_, rfl, ?_, ?_, ?_, ?_⟩
  · unfold computeDiff
    rw [List.append_assoc, List.append_assoc]
    rw [lookup_append_of_ne_key (fun p hp => by rw [key_of_mem_ite_single hp]; decide)]
    rw [lookup_append_of_ne_key (fun p hp => by rw [key_of_mem_ite_single hp]; decide)]
    rw [lookup_append_of_ne_key ?hbd]
    case hbd =>
      intro p hp
      cases hbd : dto.birthDate with
      | none => rw [hbd] at hp; simp at hp
      | some nb =>
          rw [hbd] at hp
          rw [key_of_mem_ite_single hp]
          decide
    simp only [hc]
    rw [if_pos ⟨hc0, hcne⟩]
    simp [List.lookup_cons]
  · intro h; simp [centerName, h]
  · intro h; simp [centerName, h]
  · intro h1 h2
    have hw : ∃ ws, updateWrites st id dto userId entryId now = .ok ws := by
      simp only [updateWrites, h1, h2]
      cases hempty : (computeDiff st s dto).isEmpty <;> simp [hempty]
    obtain ⟨ws, hws⟩ := hw
    exact ⟨(applyWrites st ws, applyDto s dto), by simp only [update, h1, hws]⟩
  · intro hn hnn
    unfold computeDiff
    rw [List.append_assoc, List.append_assoc]
    rw [lookup_append_of_ne_key (fun p hp => by rw [key_of_mem_ite_single hp]; decide)]
    simp only [hn]
    rw [if_pos (by simpa using hnn)]
    simp [List.lookup_cons, flatPair]

def stC6 : Store := ⟨[subA], [], [⟨"u1", "C1"⟩], []⟩

def dtoC6 : UpdateSubjectDto := ⟨none, some "Jane", none, some "C2"⟩

theorem C6_center_diff_shape_witness :
    (computeDiff stC6 subA dtoC6).lookup "center" = some (centerPair stC6 "C1" "C2") ∧
    centerName stC6 "C1" = "Unknown" ∧
    centerName stC6 "C2" = "Unknown" ∧
    (∃ p, update stC6 "a1" dtoC6 "u1" "e1" 9 = .ok p) ∧
    (computeDiff stC6 subA dtoC6).lookup "name" =
      some (JVal.obj [("old", JVal.str "Alice"), ("new", JVal.str "Jane")]) := by
  have h := C6_center_diff_shape stC6 "a1" "u1" "e1" 9 subA dtoC6 "C2" "Jane" rfl
    (by decide) (by decide)
  exact ⟨h.1, h.2.2.1 rfl, h.2.2.2.1 rfl, h.2.2.2.2.1 rfl rfl, h.2.2.2.2.2 rfl (by decide)⟩

/-- C7: the identifier-resolution order of `getAuditLogs` (UUID-shaped input
used directly; else live Subject by number; else the earliest audit entry
whose diff `number` — flat value or the `new` half of a pair — equals the
input supplies its subject reference), the empty non-error result when no
path resolves, and the result set once resolved: exactly the entries that
reference the id directly or through a `subjectId` value in their diff
payload, ordered by timestamp descending. -/
theorem C7_audit_resolution_and_result (st : Store) (input userId : String) :
    (isUUID input = true → resolveSubjectId st input = some input) ∧
    (isUUID input = false →
      ∀ s, st.subjects.find? (fun t => t.number == input) = some s →
        resolveSubjectId st input = some s.id) ∧
    (isUUID input = false →
      st.subjects.find? (fun t => t.number == input) = none →
      (∃ b ∈ st.auditLogs, numberMatches input b = true) →
      ∃ e, e ∈ st.auditLogs ∧ numberMatches input e = true ∧
        (∀ b ∈ st.auditLogs, numberMatches input b = true → e.timestamp ≤ b.timestamp) ∧
        resolveSubjectId st input = e.subjectId) ∧
    (resolveSubjectId st input = none → getAuditLogs st input userId = Except.ok []) ∧
    (∀ sid logs, resolveSubjectId st input = some sid →
      getAuditLogs st input userId = Except.ok logs →
      ((∀ e, e ∈ logs ↔ e ∈ st.auditLogs ∧ refersTo sid e = true) ∧
        logs.Pairwise (fun a b => b.timestamp ≤ a.timestamp))) := by
  refine ⟨?_, ?_, ?_, ?_, ?_⟩
  · intro h
    simp [resolveSubjectId, h]
  · intro h s hf
    simp [resolveSubjectId, h, hf]
  · intro h hnone hex
    obtain ⟨b, hb, hpb⟩ := hex
    have hbS : b ∈ st.auditLogs.insertionSort tsAsc := (List.mem_insertionSort tsAsc).mpr hb
    have hsome : ((st.auditLogs.insertionSort tsAsc).find? (numberMatches input)).isSome :=
      List.find?_isSome.mpr ⟨b, hbS, hpb⟩
    obtain ⟨e, he⟩ := Option.isSome_iff_exists.mp hsome
    refine ⟨e, (List.mem_insertionSort tsAsc).mp (List.mem_of_find?_eq_some he),
      List.find?_some he, ?_, ?_⟩
    · intro c hcmem hpc
      exact find?_first_of_pairwise (fun a _ => Nat.le_refl a.timestamp)
        (pairwise_insertionSort_tsAsc st.auditLogs) he c
        ((List.mem_insertionSort tsAsc).mpr hcmem) hpc
    · simp [resolveSubjectId, h, hnone, he]
  · intro h
    simp [getAuditLogs, h]
  · intro sid logs h1 h2
    have hlogs : logs = logsFor st sid := by
      cases hh : historicalCenterId st sid with
      | none =>
          simp only [getAuditLogs, h1, hh] at h2
          exact (Except.ok.inj h2).symm
      | some c =>
          simp only [getAuditLogs, h1, hh] at h2
          by_cases hcc : ((findUserCenters st userId).contains c) = true
          · rw [if_pos hcc] at h2
            exact (Except.ok.inj h2).symm
          · rw [if_neg hcc] at h2
            cases h2
    subst hlogs
    constructor
    · intro e
      simp [logsFor, List.mem_insertionSort, List.mem_filter]
    · simpa [logsFor] using pairwise_insertionSort_tsDesc (st.auditLogs.filter (refersTo sid))

def e10 : AuditLog := ⟨"g1", some "a1", some "u1", "CREATE", createDiff subA, 1⟩

def e11 : AuditLog :=
  ⟨"g2", some "a1", some "u1", "UPDATE",
    [("name", JVal.obj [("old", JVal.str "Alice"), ("new", JVal.str "Jane")]),
     ("subjectId", JVal.str "a1")], 2⟩

def stC7 : Store :=
  ⟨[subA], [⟨"C1", "Center A"⟩], [⟨"u1", "C1"⟩], [e10, e11]⟩

theorem C7_audit_resolution_and_result_witness :
    resolveSubjectId stC7 "123e4567-e89b-12d3-a456-426614174000" =
      some "123e4567-e89b-12d3-a456-426614174000" ∧
    resolveSubjectId stC7 "SUB-001" = some "a1" ∧
    getAuditLogs stC7 "nope" "u1" = Except.ok [] ∧
    (e10 ∈ [e11, e10] ↔ e10 ∈ stC7.auditLogs ∧ refersTo "a1" e10 = true) ∧
    List.Pairwise (fun a b => b.timestamp ≤ a.timestamp) [e11, e10] := by
  have huuid := (C7_audit_resolution_and_result stC7
    "123e4567-e89b-12d3-a456-426614174000" "u1").1 (by decide)
  have h := C7_audit_resolution_and_result stC7 "SUB-001" "u1"
  have hnum := h.2.1 rfl subA rfl
  have hmt := (C7_audit_resolution_and_result stC7 "nope" "u1").2.2.2.1 rfl
  have hres := h.2.2.2.2 "a1" [e11, e10] rfl rfl
  exact ⟨huuid, hnum, hmt, hres.1 e10, hres.2⟩

/-- C8: when a subject identifier is resolved but the resolved subject's
(possibly historical) center is outside the caller's scope, `getAuditLogs`
fails with Authorization and returns no entries. The access-control tail is
modelled from the spec, its code being elided in the source. -/
theorem C8_out_of_scope_forbidden (st : Store) (input userId sid c : String)
    (h1 : resolveSubjectId st input = some sid)
    (h2 : historicalCenterId st sid = some c)
    (h3 : (findUserCenters st userId).contains c = false) :
    getAuditLogs st input userId = .error .forbidden := by
  have hm : c ∉ findUserCenters st userId := fun hmm => by
    rw [contains_true_iff.mpr hmm] at h3
    cases h3
  simp [getAuditLogs, h1, h2, hm]

def stC8 : Store :=
  ⟨[subA], [⟨"C1", "Center A"⟩, ⟨"C2", "Center B"⟩], [⟨"u2", "C2"⟩], [e10, e11]⟩

theorem C8_out_of_scope_forbidden_witness :
    getAuditLogs stC8 "SUB-001" "u2" = .error .forbidden :=
  C8_out_of_scope_forbidden stC8 "SUB-001" "u2" "a1" "C1" rfl rfl rfl

theorem find?_map_replace {l : List Subject} {id : String} {s s2 : Subject}
    (h : l.find? (fun t => t.id == id) = some s) (h2 : s2.id = id) :
    (l.map (fun t => if t.id == id then s2 else t)).find? (fun t => t.id == id) =
      some s2 := by
  induction l with
  | nil => simp at h
  | cons a t ih =>
      by_cases ha : a.id = id
      · simp only [List.map_cons]
        rw [if_pos (by simp [ha])]
        rw [List.find?_cons_of_pos _ (by simp [h2])]
      · rw [List.find?_cons_of_neg _ (by simp [ha])] at h
        simp only [List.map_cons]
        rw [if_neg (by simp [ha])]
        rw [List.find?_cons_of_neg _ (by simp [ha])]
        exact ih h

theorem applyWrites_subject_audit (st : Store) (s2 : Subject) (e : AuditLog)
    (hex : st.subjects.any (fun t => t.id == s2.id) = true) :
    (applyWrites st [DbWrite.putSubject s2, DbWrite.putAudit e]).subjects =
      st.subjects.map (fun t => if t.id == s2.id then s2 else t) := by
  simp only [applyWrites, List.foldl, applyWrite]
  rw [if_pos hex]

/-- C9: an update whose payload carries only `{name: x}`, applied to an
existing in-scope Subject, leaves the persisted record's `number`,
`birthDate` and `centerId` unchanged (the uniqueness hypothesis `h2` says no
other row already holds the subject's own number, which store states
produced by `create` satisfy). -/
theorem C9_name_only_update_frame (st : Store) (id userId x entryId : String)
    (now : Nat) (s : Subject)
    (h1 : findOne st id userId = .ok s)
    (h2 : ∀ t ∈ st.subjects, t.number = s.number → t.id = id) :
    ∃ st2, update st id ⟨none, some x, none, none⟩ userId entryId now =
        .ok (st2, ⟨s.id, s.number, x, s.birthDate, s.centerId⟩) ∧
      st2.subjects.find? (fun t => t.id == id) =
        some ⟨s.id, s.number, x, s.birthDate, s.centerId⟩ := by
  have hfind : st.subjects.find? (fun t => t.id == id) = some s := by
    cases hf : st.subjects.find? (fun t => t.id == id) with
    | none =>
        simp only [findOne, hf] at h1
        exact absurd h1 (by simp)
    | some s1 =>
        simp only [findOne, hf] at h1
        by_cases hcc : ((findUserCenters st userId).contains s1.centerId) = true
        · rw [if_pos hcc] at h1
          rw [Except.ok.inj h1]
        · rw [if_neg hcc] at h1
          exact absurd h1 (by simp)
  have hsid : s.id = id := by
    have hps := List.find?_some hfind
    simpa using hps
  have happ : applyDto s ⟨none, some x, none, none⟩ =
      ⟨s.id, s.number, x, s.birthDate, s.centerId⟩ := rfl
  have hconf : st.subjects.any
      (fun t => t.id != id &&
        t.number == (applyDto s ⟨none, some x, none, none⟩).number) = false := by
    rw [List.any_eq_false]
    intro t ht
    rw [happ]
    simp only [Bool.and_eq_true, bne_iff_ne, ne_eq, beq_iff_eq, not_and]
    intro hne hnum
    exact hne (h2 t ht hnum)
  have hdiff : (computeDiff st s ⟨none, some x, none, none⟩).isEmpty = false := by
    unfold computeDiff
    rw [if_pos (by simp)]
    simp
  have hw : updateWrites st id ⟨none, some x, none, none⟩ userId entryId now =
      .ok [.putSubject (applyDto s ⟨none, some x, none, none⟩),
           .putAudit ⟨entryId, some id, some userId, "UPDATE",
             computeDiff st s ⟨none, some x, none, none⟩ ++ [("subjectId", .str id)],
             now⟩] := by
    simp only [updateWrites, h1]
    rw [if_neg (by simp [hconf])]
    rw [if_neg (by simp [hdiff])]
  have hid2 : (applyDto s ⟨none, some x, none, none⟩).id = id := hsid
  have hexist : st.subjects.any
      (fun t => t.id == (applyDto s ⟨none, some x, none, none⟩).id) = true := by
    rw [List.any_eq_true]
    exact ⟨s, List.mem_of_find?_eq_some hfind, by simp [hid2, hsid]⟩
  refine ⟨applyWrites st [.putSubject (applyDto s ⟨none, some x, none, none⟩),
      .putAudit ⟨entryId, some id, some userId, "UPDATE",
        computeDiff st s ⟨none, some x, none, none⟩ ++ [("subjectId", .str id)], now⟩],
    ?_, ?_⟩
  · simp only [update, h1, hw, happ]
  · rw [applyWrites_subject_audit st (applyDto s ⟨none, some x, none, none⟩) _ hexist]
    simp only [hid2]
    rw [show some (⟨s.id, s.number, x, s.birthDate, s.centerId⟩ : Subject) =
      some (applyDto s ⟨none, some x, none, none⟩) from rfl]
    exact find?_map_replace hfind hid2

theorem C9_name_only_update_frame_witness :
    ∃ st2, update st1 "a1" ⟨none, some "X", none, none⟩ "u1" "e9" 7 =
        .ok (st2, ⟨"a1", "SUB-001", "X", "1990-01-15", "C1"⟩) ∧
      st2.subjects.find? (fun t => t.id == "a1") =
        some ⟨"a1", "SUB-001", "X", "1990-01-15", "C1"⟩ := by
  have h := C9_name_only_update_frame st1 "a1" "u1" "X" "e9" 7 subA rfl (by decide)
  exact h

/-- C10: a UUID-shaped input to the audit lookup is always taken directly as
the subject identifier — even when a live Subject's `number` equals that
very string, resolution never yields that Subject's own id, so a Subject
with a UUID-shaped number cannot have its history resolved by number. -/
theorem C10_uuid_input_bypasses_number (st : Store) (input : String)
    (h : isUUID input = true) :
    resolveSubjectId st input = some input ∧
    (∀ s ∈ st.subjects, s.number = input → s.id ≠ input →
      resolveSubjectId st input ≠ some s.id) := by
  have h1 : resolveSubjectId st input = some input := by
    simp [resolveSubjectId, h]
  refine ⟨h1, ?_⟩
  intro s _ _ hne hres
  rw [h1] at hres
  exact hne (Option.some.inj hres).symm

def subU : Subject :=
  ⟨"b1", "123e4567-e89b-12d3-a456-426614174000", "Carla", "1980-05-05", "C1"⟩

def stU : Store := ⟨[subU], [], [], []⟩

theorem C10_uuid_input_bypasses_number_witness :
    resolveSubjectId stU "123e4567-e89b-12d3-a456-426614174000" =
      some "123e4567-e89b-12d3-a456-426614174000" ∧
    resolveSubjectId stU "123e4567-e89b-12d3-a456-426614174000" ≠ some "b1" := by
  have h := C10_uuid_input_bypasses_number stU
    "123e4567-e89b-12d3-a456-426614174000" (by decide)
  exact ⟨h.1, h.2 subU (by simp [stU]) rfl (by decide)⟩

end Mtw
